import Mathlib

/-!
Shallow embedding of the two document-generation services of the repository:
`AI_Research/github_setup/repo_content_generator.py` (repository-content flow)
and `app/services/prd_generator.py` (PRD flow).  Text is modelled as
`List Char`; Python exceptions are modelled as `Except`/explicit outcome
values; the external model provider (agno `Agent`) is modelled by the outcome
of its call, since it is an opaque network collaborator.
-/

/-- Python-style whitespace test, as used by `str.strip()`. -/
def isPySpace (c : Char) : Bool :=
  c = ' ' || c = '\t' || c = '\n' || c = '\r' || c = '\x0b' || c = '\x0c'

/-- List-of-chars form of Python `str.strip()`: drop whitespace from both ends. -/
def pyStrip (cs : List Char) : List Char :=
  ((cs.dropWhile isPySpace).reverse.dropWhile isPySpace).reverse

/-- The backtick character. -/
def btk : Char := '`'

/-- A triple-backtick fence, the delimiter of a fenced code block. -/
def fence3 : List Char := [btk, btk, btk]

/-- Split a text at the leftmost triple-backtick fence: the text before the
fence and the text after it, or `none` when no fence occurs.  This is the
leftmost-match behaviour of Python's regex engine for the literal fence. -/
def splitAtFence : List Char → Option (List Char × List Char)
  | [] => none
  | c :: rest =>
    if c = btk ∧ rest.take 2 = [btk, btk] then some ([], rest.drop 2)
    else (splitAtFence rest).map (fun p => (c :: p.1, p.2))

/-- The optional `json` language tag of the repository-content regex
`(?:json)?`: greedily consumed right after the opening fence when present. -/
def dropJsonTag (cs : List Char) : List Char :=
  if cs.take 4 = ['j', 's', 'o', 'n'] then cs.drop 4 else cs

/-- Fuel-driven worker computing the list of group-1 captures of
`re.finditer(r"(three backticks)(?:json)?((any chars)*?)(three backticks)", text)`:
repeatedly take the leftmost opening fence, drop an optional `json` tag, and
close at the earliest following fence (the lazy star); scanning resumes after
the closing fence (matches are non-overlapping). -/
def extractBlocksAux : Nat → List Char → List (List Char)
  | 0, _ => []
  | fuel + 1, cs =>
    match splitAtFence cs with
    | none => []
    | some (_, afterOpen) =>
      match splitAtFence (dropJsonTag afterOpen) with
      | none => []
      | some (content, rest) => content :: extractBlocksAux fuel rest

/-- All fenced-block captures of the repository-content regex, in order.
`cs.length + 1` fuel always suffices: each iteration strictly shortens the
remaining text. -/
def extractBlocks (cs : List Char) : List (List Char) :=
  extractBlocksAux (cs.length + 1) cs

/-- `RepoContentGenerator.extract_json_from_response` (repo_content_generator.py,
lines 107-113): if the fence regex matches, take the last match's capture,
stripped; otherwise return the whole response stripped. -/
def extract_json_from_response (response_content : List Char) : List Char :=
  match (extractBlocks response_content).getLast? with
  | some b => pyStrip b
  | none => pyStrip response_content

/-- Does Python's `(\s*)$` with `re.MULTILINE` succeed right after a closing
fence?  `(\s*)` may consume any prefix of the following whitespace run
(greedy with backtracking) and `$` holds at end of input or just before a
newline; so the test succeeds iff the maximal whitespace run that follows
contains a newline, or the rest of the text is entirely whitespace. -/
def closeOK (r : List Char) : Bool :=
  (r.takeWhile isPySpace).contains '\n' || (r.dropWhile isPySpace).isEmpty

/-- The optional `markdown` language tag of the PRD regex `(?:markdown)?`. -/
def dropMarkdownTag (cs : List Char) : List Char :=
  if cs.take 8 = ['m', 'a', 'r', 'k', 'd', 'o', 'w', 'n'] then cs.drop 8 else cs

/-- Find the earliest fence which, used as the closing fence, also satisfies
the `(\s*)$` tail test of the PRD regex (the lazy star grows until the first
position where the rest of the pattern succeeds).  Returns the capture before
that fence and the text after it. -/
def findCloseOK : List Char → Option (List Char × List Char)
  | [] => none
  | c :: rest =>
    if c = btk ∧ rest.take 2 = [btk, btk] ∧ closeOK (rest.drop 2) then
      some ([], rest.drop 2)
    else (findCloseOK rest).map (fun p => (c :: p.1, p.2))

/-- Group 1 of
`re.search(r"(fence)(?:markdown)?((any chars)*?)(fence)(\s*)$", text, re.MULTILINE)`:
the leftmost possible match starts at the first fence of the text (a match
starting anywhere later would make the same closing fence available to the
first one), an optional `markdown` tag is consumed, and the lazy body stops at
the earliest fence whose tail satisfies `(\s*)$`. -/
def prdMatch (cs : List Char) : Option (List Char) :=
  match splitAtFence cs with
  | none => none
  | some (_, afterOpen) =>
    match findCloseOK (dropMarkdownTag afterOpen) with
    | none => none
    | some (content, _) => some content

/-- The markdown extraction step of `PRDGeneratorService.generate_prd`
(prd_generator.py, lines 186-191): strip the response, and when the regex
matches replace the text by the stripped capture. -/
def prd_extract (response_content : List Char) : List Char :=
  match prdMatch (pyStrip response_content) with
  | some inner => pyStrip inner
  | none => pyStrip response_content

/-- There are two disjoint triple-backtick fences in the text — the textual
meaning of "the text contains a fenced code block". -/
def TwoFences (s : List Char) : Prop :=
  ∃ l m r, s = l ++ fence3 ++ m ++ fence3 ++ r

/-- JSON values as produced by `json.loads` (objects keep their member order;
a duplicate key is resolved at lookup time, last occurrence winning, matching
Python dict construction). -/
inductive JsonValue where
  | null
  | bool (b : Bool)
  | num (n : Int)
  | str (s : List Char)
  | arr (elems : List JsonValue)
  | obj (fields : List (List Char × JsonValue))

/-- JSON insignificant whitespace. -/
def isJsonWs (c : Char) : Bool :=
  c = ' ' || c = '\t' || c = '\n' || c = '\r'

/-- Skip JSON insignificant whitespace. -/
def skipWs (cs : List Char) : List Char := cs.dropWhile isJsonWs

/-- Parse the remainder of a JSON string literal, after the opening quote.
Modelled from the spec: `json.loads` string grammar (common escapes only;
an unsupported escape is a parse failure). -/
def parseStringRest : List Char → Option (List Char × List Char)
  | [] => none
  | '"' :: r => some ([], r)
  | '\\' :: e :: r =>
    (match e with
      | '"' => some '"'
      | '\\' => some '\\'
      | '/' => some '/'
      | 'n' => some '\n'
      | 't' => some '\t'
      | 'r' => some '\r'
      | 'b' => some '\x08'
      | 'f' => some '\x0c'
      | _ => none).bind
      (fun c => (parseStringRest r).map (fun p : List Char × List Char => (c :: p.1, p.2)))
  | c :: r => (parseStringRest r).map (fun p => (c :: p.1, p.2))

/-- Decimal digits to a natural number. -/
def digitsToNat (ds : List Char) : Nat :=
  ds.foldl (fun a c => a * 10 + (c.toNat - '0'.toNat)) 0

/-- Parse a JSON integer literal (this model covers integers; a fractional or
exponent part is a parse failure, modelled from the spec: the pipeline's
payloads are objects of strings). -/
def parseNumber (cs : List Char) : Option (JsonValue × List Char) :=
  let neg : Bool := match cs with | '-' :: _ => true | _ => false
  let cs1 := match cs with | '-' :: r => r | _ => cs
  let ds := cs1.takeWhile Char.isDigit
  let rest := cs1.dropWhile Char.isDigit
  if ds.isEmpty then none
  else
    match rest with
    | '.' :: _ => none
    | 'e' :: _ => none
    | 'E' :: _ => none
    | _ => some (.num (if neg then -(digitsToNat ds : Int) else (digitsToNat ds : Int)), rest)

mutual

/-- Parse one JSON value (fuel-driven recursive descent modelling
`json.loads`). -/
def parseValue : Nat → List Char → Option (JsonValue × List Char)
  | 0, _ => none
  | fuel + 1, cs =>
    match skipWs cs with
    | 'n' :: 'u' :: 'l' :: 'l' :: r => some (.null, r)
    | 't' :: 'r' :: 'u' :: 'e' :: r => some (.bool true, r)
    | 'f' :: 'a' :: 'l' :: 's' :: 'e' :: r => some (.bool false, r)
    | '"' :: r => (parseStringRest r).map (fun p => (.str p.1, p.2))
    | '[' :: r =>
      (match skipWs r with
        | ']' :: r2 => some (.arr [], r2)
        | _ => (parseElems fuel r).map (fun p => (.arr p.1, p.2)))
    | '{' :: r =>
      (match skipWs r with
        | '}' :: r2 => some (.obj [], r2)
        | _ => (parseMembers fuel r).map (fun p => (.obj p.1, p.2)))
    | other => parseNumber other

/-- Parse the elements of a non-empty JSON array, up to its closing bracket. -/
def parseElems : Nat → List Char → Option (List JsonValue × List Char)
  | 0, _ => none
  | fuel + 1, cs =>
    (parseValue fuel cs).bind (fun p =>
      match skipWs p.2 with
      | ',' :: r2 => (parseElems fuel r2).map (fun q => (p.1 :: q.1, q.2))
      | ']' :: r2 => some ([p.1], r2)
      | _ => none)

/-- Parse the members of a non-empty JSON object, up to its closing brace. -/
def parseMembers : Nat → List Char → Option (List (List Char × JsonValue) × List Char)
  | 0, _ => none
  | fuel + 1, cs =>
    match skipWs cs with
    | '"' :: r =>
      (parseStringRest r).bind (fun k =>
        match skipWs k.2 with
        | ':' :: r2 =>
          (parseValue fuel r2).bind (fun v =>
            match skipWs v.2 with
            | ',' :: r4 => (parseMembers fuel r4).map (fun q => ((k.1, v.1) :: q.1, q.2))
            | '}' :: r4 => some ([(k.1, v.1)], r4)
            | _ => none)
        | _ => none)
    | _ => none

end

/-- `json.loads`: parse a whole text as one JSON value; trailing
non-whitespace is a failure. -/
def jsonLoads (cs : List Char) : Option JsonValue :=
  match parseValue (cs.length + 1) cs with
  | some (v, rest) => if (skipWs rest).isEmpty then some v else none
  | none => none

/-- Last-occurrence-wins field lookup, matching the Python dict built by
`json.loads` and splatted into the model constructor. -/
def lookupLast (fields : List (List Char × JsonValue)) (k : List Char) : Option JsonValue :=
  match fields with
  | [] => none
  | (k', v) :: rest =>
    match lookupLast rest k with
    | some w => some w
    | none => if k' = k then some v else none

/-- The pydantic model `RepositoryContent` (repo_content_generator.py,
lines 12-21): two required string fields.  The `Field` descriptions (including
"max 160 chars") are documentation fed to the model prompt, not constraints. -/
structure RepositoryContent where
  description : List Char
  readme_content : List Char
deriving DecidableEq

/-- The JSON key of the `description` field. -/
def descKey : List Char := "description".data

/-- The JSON key of the `readme_content` field. -/
def readmeKey : List Char := "readme_content".data

/-- `RepositoryContent(**content_dict)` under pydantic v2 lax validation: the
argument must be a JSON object, both required fields must be present (unknown
keys are ignored), and each must be a JSON string (v2 does not coerce other
types to `str`).  There is no length or non-emptiness constraint.  Failure
messages are modelled. -/
def validateRepositoryContent (j : JsonValue) : Except (List Char) RepositoryContent :=
  match j with
  | .obj fields =>
    match lookupLast fields descKey, lookupLast fields readmeKey with
    | some (.str d), some (.str rc) => .ok ⟨d, rc⟩
    | none, _ => .error ("validation error for RepositoryContent: description Field required".data)
    | some _, none => .error ("validation error for RepositoryContent: readme_content Field required".data)
    | _, _ => .error ("validation error for RepositoryContent: Input should be a valid string".data)
  | _ => .error ("argument after ** must be a mapping".data)

/-- The outcome of `self.agent.run(prompt)` as observed by `generate_content`:
`noneOrEmpty` covers a falsy response or falsy/empty `.content`; `str` a
truthy string content; `repo` a content that is already a `RepositoryContent`
instance; `otherType` any other content type. -/
inductive AgentResponse where
  | noneOrEmpty
  | str (s : List Char)
  | repo (r : RepositoryContent)
  | otherType

/-- The `ValueError` message raised when the response is empty or missing. -/
def failedGenMsg : List Char := "Failed to generate repository content".data

/-- The prefix of the `ValueError` message wrapping any parse or validation
failure. -/
def parseFailPrefix : List Char := "Failed to parse agent response: ".data

/-- `RepoContentGenerator.generate_content` (repo_content_generator.py, lines
115-140), with the opaque model call abstracted by its observed response.
Raised `ValueError`s are modelled as `Except.error` carrying the message:
an empty/missing response raises before the try block; inside it, a string
content is fence-extracted, JSON-parsed and validated, a `RepositoryContent`
content is returned unchanged, and any other type raises; every exception of
the try block is re-raised as `ValueError("Failed to parse agent response: ...")`. -/
def generate_content (resp : AgentResponse) : Except (List Char) RepositoryContent :=
  match resp with
  | .noneOrEmpty => .error failedGenMsg
  | .str s =>
    match jsonLoads (extract_json_from_response s) with
    | none => .error (parseFailPrefix ++ ("Expecting value".data))
    | some j =>
      match validateRepositoryContent j with
      | .error e => .error (parseFailPrefix ++ e)
      | .ok r => .ok r
  | .repo r => .ok r
  | .otherType => .error (parseFailPrefix ++ ("Unexpected response type".data))

/-- A record of the agno memory store, as written by
`self.memory.add_user_memory(user_id=..., memory=UserMemory(memory=..., topics=...))`. -/
structure UserMemory where
  memory : List Char
  topics : List (List Char)
deriving DecidableEq

/-- The memory store: the sequence of (user id, record) writes. -/
abbrev MemStore := List (Option (List Char) × UserMemory)

/-- The fixed topics of the PRD memory record. -/
def prdTopics : List (List Char) :=
  ["PRD".data, "Product Requirements Document".data]

/-- The f-string wrapper around the generated PRD in the memory record
(prd_generator.py, lines 194-199). -/
def memoryWrap (prd : List Char) : List Char :=
  ("\n                Project PRD:\n                ```markdown\n                ".data)
    ++ prd ++ ("\n                ```\n                ".data)

/-- The dictionary returned by `generate_prd`: the success variant
`status: success, content, project_name` or the error variant
`status: error, error`. -/
inductive PrdResult where
  | success (content : List Char) (project_name : List Char)
  | error (msg : List Char)
deriving DecidableEq

/-- `PRDGeneratorService.generate_prd` (prd_generator.py, lines 163-215).
The awaited model call is abstracted by its outcome `agentOutcome`
(`Except.error e` models any exception raised by `arun` or while reading
`.content`, `Except.ok c` a returned content string); the memory backend by
`memWriteFail` (`some e` models `add_user_memory` raising `e`) and the store
state `mem`.  The body runs under `try/except Exception`: an exception at any
step yields the error dictionary and the store is left as it was; on success
the stripped, fence-extracted PRD is wrapped and appended to the store. -/
def generate_prd (brd_content project_name : List Char) (user_id : Option (List Char))
    (agentOutcome : Except (List Char) (List Char)) (memWriteFail : Option (List Char))
    (mem : MemStore) : PrdResult × MemStore :=
  match agentOutcome with
  | .error e => (.error e, mem)
  | .ok content =>
    let prd := prd_extract content
    match memWriteFail with
    | some e => (.error e, mem)
    | none => (.success prd project_name, mem ++ [(user_id, ⟨memoryWrap prd, prdTopics⟩)])


/-! ### Helper lemmas about the fence scanners and stripping -/

theorem splitAtFence_eq_some : ∀ cs a b, splitAtFence cs = some (a, b) →
    cs = a ++ fence3 ++ b := by
  intro cs
  induction cs with
  | nil => intro a b h; simp [splitAtFence] at h
  | cons c rest ih =>
    intro a b h
    rw [splitAtFence] at h
    split at h
    · rename_i hcond
      obtain ⟨hc, ht⟩ := hcond
      simp only [Option.some.injEq, Prod.mk.injEq] at h
      obtain ⟨ha, hb⟩ := h
      subst ha; subst hb; subst hc
      simp only [fence3, List.nil_append, List.cons_append]
      congr 1
      conv_lhs => rw [← List.take_append_drop 2 rest, ht]
      rfl
    · cases hsp : splitAtFence rest with
      | none => rw [hsp] at h; simp at h
      | some p =>
        rw [hsp] at h
        simp only [Option.map_some', Option.some.injEq, Prod.mk.injEq] at h
        obtain ⟨ha, hb⟩ := h
        subst ha; subst hb
        have hr := ih p.1 p.2 (by rw [hsp])
        rw [hr]
        simp [List.cons_append, List.append_assoc]

theorem findCloseOK_eq_some : ∀ cs a b, findCloseOK cs = some (a, b) →
    cs = a ++ fence3 ++ b := by
  intro cs
  induction cs with
  | nil => intro a b h; simp [findCloseOK] at h
  | cons c rest ih =>
    intro a b h
    rw [findCloseOK] at h
    split at h
    · rename_i hcond
      obtain ⟨hc, ht, _⟩ := hcond
      simp only [Option.some.injEq, Prod.mk.injEq] at h
      obtain ⟨ha, hb⟩ := h
      subst ha; subst hb; subst hc
      simp only [fence3, List.nil_append, List.cons_append]
      congr 1
      conv_lhs => rw [← List.take_append_drop 2 rest, ht]
      rfl
    · cases hsp : findCloseOK rest with
      | none => rw [hsp] at h; simp at h
      | some p =>
        rw [hsp] at h
        simp only [Option.map_some', Option.some.injEq, Prod.mk.injEq] at h
        obtain ⟨ha, hb⟩ := h
        subst ha; subst hb
        have hr := ih p.1 p.2 (by rw [hsp])
        rw [hr]
        simp [List.cons_append, List.append_assoc]

theorem dropJsonTag_decomp (cs : List Char) : ∃ t, cs = t ++ dropJsonTag cs := by
  unfold dropJsonTag
  split
  · exact ⟨cs.take 4, (List.take_append_drop 4 cs).symm⟩
  · exact ⟨[], rfl⟩

theorem dropMarkdownTag_decomp (cs : List Char) : ∃ t, cs = t ++ dropMarkdownTag cs := by
  unfold dropMarkdownTag
  split
  · exact ⟨cs.take 8, (List.take_append_drop 8 cs).symm⟩
  · exact ⟨[], rfl⟩

theorem blocks_nil_of_not_twoFences {cs : List Char} (h : ¬ TwoFences cs) :
    extractBlocks cs = [] := by
  unfold extractBlocks
  simp only [extractBlocksAux]
  cases h1 : splitAtFence cs with
  | none => rfl
  | some p =>
    obtain ⟨a, b⟩ := p
    dsimp only
    cases h2 : splitAtFence (dropJsonTag b) with
    | none => rfl
    | some q =>
      obtain ⟨cnt, rest⟩ := q
      exfalso
      apply h
      obtain ⟨t, ht⟩ := dropJsonTag_decomp b
      have e1 := splitAtFence_eq_some cs a b h1
      have e2 := splitAtFence_eq_some _ cnt rest h2
      refine ⟨a, t ++ cnt, rest, ?_⟩
      rw [e1, ht, e2]
      simp [List.append_assoc]

theorem prdMatch_none_of_not_twoFences {cs : List Char} (h : ¬ TwoFences cs) :
    prdMatch cs = none := by
  unfold prdMatch
  cases h1 : splitAtFence cs with
  | none => rfl
  | some p =>
    obtain ⟨a, b⟩ := p
    dsimp only
    cases h2 : findCloseOK (dropMarkdownTag b) with
    | none => rfl
    | some q =>
      obtain ⟨cnt, rest⟩ := q
      exfalso
      apply h
      obtain ⟨t, ht⟩ := dropMarkdownTag_decomp b
      have e1 := splitAtFence_eq_some cs a b h1
      have e2 := findCloseOK_eq_some _ cnt rest h2
      refine ⟨a, t ++ cnt, rest, ?_⟩
      rw [e1, ht, e2]
      simp [List.append_assoc]

theorem dropWhile_eq_pyStrip_append (cs : List Char) :
    cs.dropWhile isPySpace
      = pyStrip cs ++ ((cs.dropWhile isPySpace).reverse.takeWhile isPySpace).reverse := by
  conv_lhs => rw [← List.reverse_reverse (cs.dropWhile isPySpace)]
  conv_lhs => rw [← List.takeWhile_append_dropWhile isPySpace (cs.dropWhile isPySpace).reverse]
  rw [List.reverse_append]
  rfl

theorem pyStrip_decomp (cs : List Char) : ∃ u v, cs = u ++ pyStrip cs ++ v := by
  refine ⟨cs.takeWhile isPySpace,
    ((cs.dropWhile isPySpace).reverse.takeWhile isPySpace).reverse, ?_⟩
  conv_lhs => rw [← List.takeWhile_append_dropWhile isPySpace cs]
  conv_lhs => rw [dropWhile_eq_pyStrip_append cs]
  rw [List.append_assoc]

theorem twoFences_of_pyStrip {cs : List Char} (h : TwoFences (pyStrip cs)) :
    TwoFences cs := by
  obtain ⟨l, m, r, hlmr⟩ := h
  obtain ⟨u, v, huv⟩ := pyStrip_decomp cs
  refine ⟨u ++ l, m, r ++ v, ?_⟩
  conv_lhs => rw [huv, hlmr]
  simp only [List.append_assoc]

theorem btk_mem_of_twoFences {cs : List Char} (h : TwoFences cs) : btk ∈ cs := by
  obtain ⟨l, m, r, rfl⟩ := h
  simp [fence3]

theorem pyStrip_head_not_space (cs : List Char) :
    List.dropWhile isPySpace (pyStrip cs) = pyStrip cs := by
  have hA := dropWhile_eq_pyStrip_append cs
  cases hB : pyStrip cs with
  | nil => rfl
  | cons c t =>
    rw [hB] at hA
    have hq : (cs.dropWhile isPySpace).head? = some c := by rw [hA]; rfl
    have h2 := List.head?_dropWhile_not isPySpace cs
    rw [hq] at h2
    have h3 : isPySpace c = false := h2
    exact List.dropWhile_cons_of_neg (by simp [h3])

theorem pyStrip_idem (cs : List Char) : pyStrip (pyStrip cs) = pyStrip cs := by
  show ((List.dropWhile isPySpace (pyStrip cs)).reverse.dropWhile isPySpace).reverse = pyStrip cs
  rw [pyStrip_head_not_space]
  show (((((cs.dropWhile isPySpace).reverse.dropWhile isPySpace)).reverse).reverse.dropWhile
    isPySpace).reverse = pyStrip cs
  rw [List.reverse_reverse, List.dropWhile_idempotent]
  rfl

theorem json_extract_of_no_blocks {s : List Char} (h : extractBlocks s = []) :
    extract_json_from_response s = pyStrip s := by
  unfold extract_json_from_response
  rw [h]
  rfl

theorem prd_extract_of_no_match {s : List Char} (h : prdMatch (pyStrip s) = none) :
    prd_extract s = pyStrip s := by
  unfold prd_extract
  rw [h]

/-! ### Claim theorems -/

/-- Claim C1 (amended): for any input whose text contains more than one fenced
code block, the repository-content JSON extractor returns the trimmed capture
of the last occurring block.  (The PRD markdown extraction step does not share
this property; see the counterexample.) -/
theorem c1_json_extractor_returns_last_block (s b : List Char)
    (_hmany : 1 < (extractBlocks s).length)
    (hlast : (extractBlocks s).getLast? = some b) :
    extract_json_from_response s = pyStrip b := by
  unfold extract_json_from_response
  rw [hlast]

/-- Claim C1 witness: a concrete two-block input on which the JSON extractor
returns the trimmed content of the last block. -/
theorem c1_json_extractor_returns_last_block_witness :
    extract_json_from_response ("```\na\n```\n```\nb\n```".data) = pyStrip ("\nb\n".data) :=
  c1_json_extractor_returns_last_block _ _ (by decide) (by decide)

/-- Claim C1 counterexample: on the two-block input below, the last block's
trimmed content is `b`, the JSON extractor returns it, but the PRD markdown
extraction step returns `a` — the first block — because with `re.MULTILINE`
the anchor `(\s*)$` of its regex already succeeds at the end of the line of
the first closing fence. -/
theorem c1_prd_not_last_block_counterexample :
    1 < (extractBlocks ("```\na\n```\n```\nb\n```".data)).length ∧
    (extractBlocks ("```\na\n```\n```\nb\n```".data)).getLast? = some ("\nb\n".data) ∧
    extract_json_from_response ("```\na\n```\n```\nb\n```".data) = "b".data ∧
    prd_extract ("```\na\n```\n```\nb\n```".data) = "a".data ∧
    prd_extract ("```\na\n```\n```\nb\n```".data) ≠ pyStrip ("\nb\n".data) :=
  ⟨by decide, by decide, by decide, by decide, by decide⟩

/-- Claim C7 (amended): for any input whose text contains exactly one fenced
code block, the repository-content JSON extractor returns that block's
trimmed capture, regardless of surrounding prose.  (The PRD markdown
extraction step does not share this property; see the counterexample.) -/
theorem c7_json_extractor_single_block (s b : List Char)
    (_hone : (extractBlocks s).length = 1)
    (hlast : (extractBlocks s).getLast? = some b) :
    extract_json_from_response s = pyStrip b := by
  unfold extract_json_from_response
  rw [hlast]

/-- Claim C7 witness: a concrete single-block input surrounded by prose on
which the JSON extractor returns the block's trimmed content. -/
theorem c7_json_extractor_single_block_witness :
    extract_json_from_response ("before ``` mid ``` after".data) = pyStrip (" mid ".data) :=
  c7_json_extractor_single_block _ _ (by decide) (by decide)

/-- Claim C7 counterexample: a single fenced block with prose after the
closing fence on the same line.  The PRD extraction step returns the whole
trimmed input, not the block's trimmed inner content (neither with nor
without the language tag), because `(\s*)$` cannot succeed after the closing
fence. -/
theorem c7_prd_trailing_prose_counterexample :
    (extractBlocks ("intro ```markdown\nX\n``` done".data)).length = 1 ∧
    prd_extract ("intro ```markdown\nX\n``` done".data) = "intro ```markdown\nX\n``` done".data ∧
    prd_extract ("intro ```markdown\nX\n``` done".data) ≠ "X".data ∧
    prd_extract ("intro ```markdown\nX\n``` done".data) ≠ pyStrip ("markdown\nX\n".data) :=
  ⟨by decide, by decide, by decide, by decide⟩

/-- Claim C8 (confirmed): on any input containing zero fenced code blocks
(no two disjoint triple-backtick fences), both extractors return the trimmed
original text unchanged, and both are idempotent on such inputs. -/
theorem c8_no_fences_identity_idempotent (s : List Char) (h : ¬ TwoFences s) :
    extract_json_from_response s = pyStrip s ∧
    extract_json_from_response (extract_json_from_response s) = extract_json_from_response s ∧
    prd_extract s = pyStrip s ∧
    prd_extract (prd_extract s) = prd_extract s := by
  have hstrip : ¬ TwoFences (pyStrip s) := fun hp => h (twoFences_of_pyStrip hp)
  have hb2 : extractBlocks (pyStrip s) = [] := blocks_nil_of_not_twoFences hstrip
  have hm : prdMatch (pyStrip s) = none := prdMatch_none_of_not_twoFences hstrip
  have hJ1 : extract_json_from_response s = pyStrip s :=
    json_extract_of_no_blocks (blocks_nil_of_not_twoFences h)
  have hP1 : prd_extract s = pyStrip s := prd_extract_of_no_match hm
  have hm2 : prdMatch (pyStrip (pyStrip s)) = none := by rw [pyStrip_idem]; exact hm
  refine ⟨hJ1, ?_, hP1, ?_⟩
  · rw [hJ1, json_extract_of_no_blocks hb2, pyStrip_idem]
  · rw [hP1, prd_extract_of_no_match hm2, pyStrip_idem]

/-- Claim C8 witness: both extractors leave a concrete fence-free text
(trimmed) unchanged and are idempotent on it. -/
theorem c8_no_fences_identity_idempotent_witness :
    extract_json_from_response ("plain model answer with no code fences".data)
      = pyStrip ("plain model answer with no code fences".data) ∧
    extract_json_from_response
        (extract_json_from_response ("plain model answer with no code fences".data))
      = extract_json_from_response ("plain model answer with no code fences".data) ∧
    prd_extract ("plain model answer with no code fences".data)
      = pyStrip ("plain model answer with no code fences".data) ∧
    prd_extract (prd_extract ("plain model answer with no code fences".data))
      = prd_extract ("plain model answer with no code fences".data) :=
  c8_no_fences_identity_idempotent _
    (fun hp => absurd (btk_mem_of_twoFences hp) (by decide))

/-- Claim C2 (confirmed): `generate_prd` catches every exception raised by the
model invocation or the memory write and returns the error-variant dictionary
carrying the exception's message; for every input its result is one of the
two dictionary variants, so no exception ever propagates to the caller. -/
theorem c2_generate_prd_never_propagates (brd pn : List Char) (uid : Option (List Char))
    (mem : MemStore) :
    (∀ e mf, (generate_prd brd pn uid (Except.error e) mf mem).1 = PrdResult.error e) ∧
    (∀ c e, (generate_prd brd pn uid (Except.ok c) (some e) mem).1 = PrdResult.error e) ∧
    (∀ ao mf, (∃ c, (generate_prd brd pn uid ao mf mem).1 = PrdResult.success c pn) ∨
      (∃ e, (generate_prd brd pn uid ao mf mem).1 = PrdResult.error e)) := by
  refine ⟨fun e mf => rfl, fun c e => rfl, fun ao mf => ?_⟩
  cases ao with
  | error e => exact Or.inr ⟨e, rfl⟩
  | ok c =>
    cases mf with
    | some e => exact Or.inr ⟨e, rfl⟩
    | none => exact Or.inl ⟨prd_extract c, rfl⟩

/-- Claim C6 (confirmed): when the model call of the PRD flow raises, the
result is the error-variant dictionary carrying the exception message and the
memory store is returned unchanged — no record is written. -/
theorem c6_agent_error_memory_unchanged (brd pn : List Char) (uid : Option (List Char))
    (mf : Option (List Char)) (mem : MemStore) (e : List Char) :
    generate_prd brd pn uid (Except.error e) mf mem = (PrdResult.error e, mem) := rfl

/-- Claim C10 (confirmed): when the agent response's content is already a
`RepositoryContent` instance, `generate_content` returns it unchanged —
the extraction, JSON parsing and validation steps are bypassed. -/
theorem c10_passthrough_repository_content (r : RepositoryContent) :
    generate_content (AgentResponse.repo r) = Except.ok r := rfl

/-- Claim C5 (confirmed): `generate_content` always either returns a
`RepositoryContent` or fails with a `ValueError`-modelled message; it fails
on an empty/missing response, on unparseable extracted text, and on
validation failure (wrapping the inner message), with no other outcome. -/
theorem c5_generate_content_valueerror_total :
    (∀ resp, (∃ r, generate_content resp = Except.ok r) ∨
      (∃ m, generate_content resp = Except.error m)) ∧
    (generate_content AgentResponse.noneOrEmpty = Except.error failedGenMsg) ∧
    (∀ s, jsonLoads (extract_json_from_response s) = none →
      generate_content (AgentResponse.str s)
        = Except.error (parseFailPrefix ++ ("Expecting value".data))) ∧
    (∀ s j e, jsonLoads (extract_json_from_response s) = some j →
      validateRepositoryContent j = Except.error e →
      generate_content (AgentResponse.str s) = Except.error (parseFailPrefix ++ e)) := by
  refine ⟨?_, rfl, ?_, ?_⟩
  · intro resp
    cases resp with
    | noneOrEmpty => exact Or.inr ⟨_, rfl⟩
    | otherType => exact Or.inr ⟨_, rfl⟩
    | repo r => exact Or.inl ⟨r, rfl⟩
    | str s =>
      cases hj : jsonLoads (extract_json_from_response s) with
      | none =>
        exact Or.inr ⟨parseFailPrefix ++ ("Expecting value".data),
          by simp [generate_content, hj]⟩
      | some j =>
        cases hv : validateRepositoryContent j with
        | error e => exact Or.inr ⟨parseFailPrefix ++ e, by simp [generate_content, hj, hv]⟩
        | ok r => exact Or.inl ⟨r, by simp [generate_content, hj, hv]⟩
  · intro s hj
    simp [generate_content, hj]
  · intro s j e hj hv
    simp [generate_content, hj, hv]

/-- Claim C5 witness: concrete failures — prose that is not JSON yields the
parse-failure `ValueError`, and a JSON array (not an object) yields the
wrapped validation `ValueError`. -/
theorem c5_generate_content_valueerror_total_witness :
    generate_content (AgentResponse.str ("the model returned prose, not json".data))
      = Except.error (parseFailPrefix ++ ("Expecting value".data)) ∧
    generate_content (AgentResponse.str ("```json\n[1, 2]\n```".data))
      = Except.error (parseFailPrefix ++ ("argument after ** must be a mapping".data)) :=
  ⟨c5_generate_content_valueerror_total.2.2.1 _ (by rfl),
   c5_generate_content_valueerror_total.2.2.2 _ _ _ (by rfl) (by rfl)⟩

theorem validate_ok_inv {j : JsonValue} {r : RepositoryContent}
    (h : validateRepositoryContent j = Except.ok r) :
    ∃ fields, j = JsonValue.obj fields ∧
      lookupLast fields descKey = some (JsonValue.str r.description) ∧
      lookupLast fields readmeKey = some (JsonValue.str r.readme_content) := by
  cases j with
  | obj fields =>
    simp only [validateRepositoryContent] at h
    split at h
    · rename_i d rc heq1 heq2
      injection h with h'
      subst h'
      exact ⟨fields, rfl, heq1, heq2⟩
    · simp at h
    · simp at h
    · simp at h
  | null => simp [validateRepositoryContent] at h
  | bool b => simp [validateRepositoryContent] at h
  | num n => simp [validateRepositoryContent] at h
  | str s => simp [validateRepositoryContent] at h
  | arr xs => simp [validateRepositoryContent] at h

/-- Claim C3 (amended): the 160-character limit on `description` is not
enforced by validation — it exists only as schema documentation.  A JSON
object whose `description` is any string, in particular one longer than 160
characters, validates successfully together with any `readme_content`
string. -/
theorem c3_description_length_not_enforced (d rc : List Char) (_h : 160 < d.length) :
    validateRepositoryContent
        (JsonValue.obj [(descKey, JsonValue.str d), (readmeKey, JsonValue.str rc)])
      = Except.ok ⟨d, rc⟩ := rfl

set_option maxRecDepth 4000 in
/-- Claim C3 witness: a 161-character description validates successfully. -/
theorem c3_description_length_not_enforced_witness :
    validateRepositoryContent
        (JsonValue.obj [(descKey, JsonValue.str (List.replicate 161 'b')),
          (readmeKey, JsonValue.str ("ok".data))])
      = Except.ok ⟨List.replicate 161 'b', "ok".data⟩ :=
  c3_description_length_not_enforced _ _ (by decide)

set_option maxRecDepth 4000 in
/-- Claim C3 counterexample: validation does not fail on an over-length
description — it succeeds, contradicting the claim that a `description`
longer than 160 characters is rejected. -/
theorem c3_overlong_description_validates_counterexample :
    160 < (List.replicate 161 'a').length ∧
    validateRepositoryContent
        (JsonValue.obj [(descKey, JsonValue.str (List.replicate 161 'a')),
          (readmeKey, JsonValue.str ("readme".data))])
      = Except.ok ⟨List.replicate 161 'a', "readme".data⟩ :=
  ⟨by decide, rfl⟩

/-- Claim C4 (amended): a successful `generate_content` guarantees only that
the result either is the passthrough `RepositoryContent` instance, or carries
exactly the two JSON string values found at `description` and
`readme_content` in the parsed object — presence and string type, not
non-emptiness. -/
theorem c4_success_fields_are_json_strings (resp : AgentResponse) (r : RepositoryContent)
    (h : generate_content resp = Except.ok r) :
    resp = AgentResponse.repo r ∨
    ∃ s fields, resp = AgentResponse.str s ∧
      jsonLoads (extract_json_from_response s) = some (JsonValue.obj fields) ∧
      lookupLast fields descKey = some (JsonValue.str r.description) ∧
      lookupLast fields readmeKey = some (JsonValue.str r.readme_content) := by
  cases resp with
  | noneOrEmpty => simp [generate_content] at h
  | otherType => simp [generate_content] at h
  | repo r' =>
    left
    simp only [generate_content, Except.ok.injEq] at h
    rw [h]
  | str s =>
    right
    simp only [generate_content] at h
    split at h
    · simp at h
    · rename_i j hj
      split at h
      · simp at h
      · rename_i r' hv
        injection h with h'
        subst h'
        obtain ⟨fields, hobj, hd, hrc⟩ := validate_ok_inv hv
        subst hobj
        exact ⟨s, fields, rfl, hj, hd, hrc⟩

/-- Claim C4 witness: the amended invariant at a concrete successful call. -/
theorem c4_success_fields_are_json_strings_witness :
    AgentResponse.repo (⟨"d".data, "r".data⟩ : RepositoryContent)
        = AgentResponse.repo (⟨"d".data, "r".data⟩ : RepositoryContent) ∨
    ∃ s fields, AgentResponse.repo (⟨"d".data, "r".data⟩ : RepositoryContent)
        = AgentResponse.str s ∧
      jsonLoads (extract_json_from_response s) = some (JsonValue.obj fields) ∧
      lookupLast fields descKey
        = some (JsonValue.str (⟨"d".data, "r".data⟩ : RepositoryContent).description) ∧
      lookupLast fields readmeKey
        = some (JsonValue.str (⟨"d".data, "r".data⟩ : RepositoryContent).readme_content) :=
  c4_success_fields_are_json_strings _ _ rfl

/-- Claim C4 counterexample: a successful `generate_content` call whose
result has an empty `description` and an empty `readme_content`, refuting the
claimed non-emptiness invariant. -/
theorem c4_empty_fields_success_counterexample :
    generate_content
        (AgentResponse.str
          ("```json\n\x7b\"description\": \"\", \"readme_content\": \"\"\x7d\n```".data))
      = Except.ok ⟨[], []⟩ := rfl

/-- Claim C9 (confirmed): validation of a JSON object lacking the required
`readme_content` field always fails with a descriptive message, and through
`generate_content` such an object always surfaces as the `ValueError`-class
parse failure — never as a success. -/
theorem c9_missing_readme_rejected (fields : List (List Char × JsonValue))
    (h : lookupLast fields readmeKey = none) :
    (∃ m, validateRepositoryContent (JsonValue.obj fields) = Except.error m) ∧
    (∀ s, jsonLoads (extract_json_from_response s) = some (JsonValue.obj fields) →
      ∃ m, generate_content (AgentResponse.str s) = Except.error m) := by
  have h1 : ∃ m, validateRepositoryContent (JsonValue.obj fields) = Except.error m := by
    simp only [validateRepositoryContent]
    split
    · rename_i d rc heq1 heq2
      rw [h] at heq2
      cases heq2
    · exact ⟨_, rfl⟩
    · exact ⟨_, rfl⟩
    · exact ⟨_, rfl⟩
  refine ⟨h1, ?_⟩
  intro s hs
  obtain ⟨m, hm⟩ := h1
  exact ⟨parseFailPrefix ++ m, by simp [generate_content, hs, hm]⟩

/-- Claim C9 witness: a concrete object with only a `description` field is
rejected by validation and by the whole generation call. -/
theorem c9_missing_readme_rejected_witness :
    (∃ m, validateRepositoryContent
        (JsonValue.obj [(descKey, JsonValue.str ("short".data))]) = Except.error m) ∧
    (∃ m, generate_content
        (AgentResponse.str ("```json\n\x7b\"description\": \"short\"\x7d\n```".data))
      = Except.error m) :=
  ⟨(c9_missing_readme_rejected [(descKey, JsonValue.str ("short".data))] rfl).1,
   (c9_missing_readme_rejected [(descKey, JsonValue.str ("short".data))] rfl).2 _ (by rfl)⟩
